import Mathlib

/-!
Verification of the nsjail configuration compiler (`src/config.cc`).

The file shallowly embeds the data model and the operations of
`configRLimit` and `configParseInternal`:

* protobuf input messages (`nsjail.NsJailConfig` and its submessages) become
  Lean structures; proto2 optional fields with presence become `Option`;
* the output structure `nsjconf_t` becomes the Lean structure `Nsjconf`;
* machine `uint64_t` arithmetic is `Nat` with an explicit `% 2 ^ 64`;
* external collaborators (`caps::nameToVal`, `cmdline::parseRLimit`,
  `user::parseId`'s validator, `mnt::addMountPtTail`'s validity check) are
  parameters collected in the structure `Ext`;
* the C `static std::vector<const char*> argv` buffer inside
  `configParseInternal` is threaded explicitly as a `List (Option String)`
  argument and result (`none` models the `nullptr` entry).
-/

namespace nsjail

/-- proto2 enum `nsjail.Mode` (closed: text parsing rejects unknown labels). -/
inductive Mode where
  | LISTEN
  | ONCE
  | RERUN
  | EXECVE
deriving DecidableEq, Repr

/-- proto2 enum `nsjail.LogLevel`. -/
inductive LogLevel where
  | DEBUG
  | INFO
  | WARNING
  | ERROR
  | FATAL
deriving DecidableEq, Repr

/-- proto2 enum `nsjail.RLimit`: how one resource ceiling is derived. -/
inductive RLimit where
  | VALUE
  | SOFT
  | HARD
  | INF
deriving DecidableEq, Repr

/-- message `nsjail.IdMap`: one declared uid/gid mapping entry. -/
structure IdMap where
  inside_id : Option String
  outside_id : Option String
  count : Nat
  use_newidmap : Bool
deriving DecidableEq, Repr

/-- message `nsjail.MountPt`: one declared mount descriptor. -/
structure MountPt where
  src : Option String
  prefix_src_env : Option String
  src_content : Option String
  dst : Option String
  prefix_dst_env : Option String
  fstype : Option String
  options : Option String
  is_bind : Bool
  rw : Bool
  is_dir : Option Bool
  mandatory : Bool
  is_symlink : Bool
deriving DecidableEq, Repr

/-- message `nsjail.Exe`: the declared exec descriptor. -/
structure Exe where
  path : String
  arg : List String
  arg0 : Option String
  exec_fd : Bool
deriving DecidableEq, Repr

/-- message `nsjail.NsJailConfig`: the decoded declarative configuration. -/
structure NsJailConfig where
  mode : Mode
  chroot_dir : Option String
  is_root_rw : Bool
  hostname : String
  cwd : String
  port : Nat
  bindhost : String
  max_conns_per_ip : Nat
  time_limit : Nat
  max_cpus : Nat
  daemon : Bool
  log_fd : Option Nat
  log_file : Option String
  log_level : Option LogLevel
  keep_env : Bool
  envar : List String
  keep_caps : Bool
  cap : List String
  silent : Bool
  skip_setsid : Bool
  pass_fd : List Nat
  disable_no_new_privs : Bool
  rlimit_as : Nat
  rlimit_as_type : RLimit
  rlimit_core : Nat
  rlimit_core_type : RLimit
  rlimit_cpu : Nat
  rlimit_cpu_type : RLimit
  rlimit_fsize : Nat
  rlimit_fsize_type : RLimit
  rlimit_nofile : Nat
  rlimit_nofile_type : RLimit
  rlimit_nproc : Nat
  rlimit_nproc_type : RLimit
  rlimit_stack : Nat
  rlimit_stack_type : RLimit
  persona_addr_compat_layout : Bool
  persona_mmap_page_zero : Bool
  persona_read_implies_exec : Bool
  persona_addr_limit_3gb : Bool
  persona_addr_no_randomize : Bool
  clone_newnet : Bool
  clone_newuser : Bool
  clone_newns : Bool
  clone_newpid : Bool
  clone_newipc : Bool
  clone_newuts : Bool
  clone_newcgroup : Bool
  uidmap : List IdMap
  gidmap : List IdMap
  mount_proc : Bool
  mount : List MountPt
  seccomp_policy_file : Option String
  seccomp_string : List String
  cgroup_mem_max : Nat
  cgroup_mem_mount : String
  cgroup_mem_parent : String
  cgroup_pids_max : Nat
  cgroup_pids_mount : String
  cgroup_pids_parent : String
  cgroup_net_cls_classid : Nat
  cgroup_net_cls_mount : String
  cgroup_net_cls_parent : String
  iface_no_lo : Bool
  macvlan_iface : Option String
  macvlan_vs_ip : String
  macvlan_vs_nm : String
  macvlan_vs_gw : String
  exec_bin : Option Exe
deriving DecidableEq, Repr

end nsjail

namespace mnt

/-- `mnt::isDir_t`: the tri-state directory hint of a mount operation. -/
inductive isDir_t where
  | NS_DIR_YES
  | NS_DIR_NO
  | NS_DIR_MAYBE
deriving DecidableEq, Repr

end mnt

namespace logs

/-- `logs::log_level_t` as used in `nsjconf->loglevel`. -/
inductive log_level_t where
  | DEBUG
  | INFO
  | WARNING
  | ERROR
  | FATAL
deriving DecidableEq, Repr

end logs

namespace config

/-- `<sys/mount.h>` flag. -/
def MS_RDONLY : Nat := 1

/-- `<sys/mount.h>` flag. -/
def MS_BIND : Nat := 4096

/-- `<sys/mount.h>` flag. -/
def MS_REC : Nat := 16384

/-- `<sys/mount.h>` flag. -/
def MS_PRIVATE : Nat := 262144

/-- `<sys/personality.h>` flag. -/
def ADDR_COMPAT_LAYOUT : Nat := 0x0200000

/-- `<sys/personality.h>` flag. -/
def MMAP_PAGE_ZERO : Nat := 0x0100000

/-- `<sys/personality.h>` flag. -/
def READ_IMPLIES_EXEC : Nat := 0x0400000

/-- `<sys/personality.h>` flag. -/
def ADDR_LIMIT_3GB : Nat := 0x8000000

/-- `<sys/personality.h>` flag. -/
def ADDR_NO_RANDOMIZE : Nat := 0x0040000

/-- `<sys/resource.h>` resource kind number. -/
def RLIMIT_CPU : Nat := 0

/-- `<sys/resource.h>` resource kind number. -/
def RLIMIT_FSIZE : Nat := 1

/-- `<sys/resource.h>` resource kind number. -/
def RLIMIT_STACK : Nat := 3

/-- `<sys/resource.h>` resource kind number. -/
def RLIMIT_CORE : Nat := 4

/-- `<sys/resource.h>` resource kind number. -/
def RLIMIT_NPROC : Nat := 6

/-- `<sys/resource.h>` resource kind number. -/
def RLIMIT_NOFILE : Nat := 7

/-- `<sys/resource.h>` resource kind number. -/
def RLIMIT_AS : Nat := 9

/-- glibc `RLIM64_INFINITY` (`~0ULL`): the canonical "no limit" sentinel. -/
def RLIM64_INFINITY : Nat := 2 ^ 64 - 1

/-- One resolved mount operation as built by `configParseInternal` and handed
to `mnt::addMountPtTail` (its argument tuple, value-copied). -/
structure MountOp where
  src : Option String
  dst : Option String
  fstype : Option String
  options : Option String
  flags : Nat
  isDir : mnt.isDir_t
  mandatory : Bool
  src_env : Option String
  dst_env : Option String
  src_content : Option String
  is_symlink : Bool
deriving DecidableEq, Repr

/-- One id-mapping entry accumulated by `user::parseId` into the config. -/
structure IdMapped where
  inside_id : Option String
  outside_id : Option String
  count : Nat
  use_newidmap : Bool
deriving DecidableEq, Repr

/-- `nsjconf_t`: the runtime sandbox configuration written by
`configParseInternal` (the fields `src/config.cc` touches). `argv` models the
`const char**` view (`none` is the `nullptr` terminator); `exec_file` models a
`const char*` that may be unset. -/
structure Nsjconf where
  mode : Nat
  chroot : String
  is_root_rw : Bool
  hostname : String
  cwd : String
  port : Nat
  bindhost : String
  max_conns_per_ip : Nat
  tlimit : Nat
  max_cpus : Nat
  daemonize : Bool
  logfile : String
  loglevel : logs.log_level_t
  keep_env : Bool
  envs : List String
  keep_caps : Bool
  caps : List Int
  is_silent : Bool
  skip_setsid : Bool
  openfds : List Nat
  disable_no_new_privs : Bool
  rl_as : Nat
  rl_core : Nat
  rl_cpu : Nat
  rl_fsize : Nat
  rl_nofile : Nat
  rl_nproc : Nat
  rl_stack : Nat
  personality : Nat
  clone_newnet : Bool
  clone_newuser : Bool
  clone_newns : Bool
  clone_newpid : Bool
  clone_newipc : Bool
  clone_newuts : Bool
  clone_newcgroup : Bool
  uids : List IdMapped
  gids : List IdMapped
  proc_path : String
  mounts : List MountOp
  kafel_file_path : String
  kafel_string : String
  cgroup_mem_max : Nat
  cgroup_mem_mount : String
  cgroup_mem_parent : String
  cgroup_pids_max : Nat
  cgroup_pids_mount : String
  cgroup_pids_parent : String
  cgroup_net_cls_classid : Nat
  cgroup_net_cls_mount : String
  cgroup_net_cls_parent : String
  iface_lo : Bool
  iface_vs : String
  iface_vs_ip : String
  iface_vs_nm : String
  iface_vs_gw : String
  exec_file : Option String
  argv : List (Option String)
  use_execveat : Bool
deriving DecidableEq, Repr

/-- `MODE_LISTEN_TCP` (run-mode tag from `nsjail.h`). -/
def MODE_LISTEN_TCP : Nat := 0

/-- `MODE_STANDALONE_ONCE`. -/
def MODE_STANDALONE_ONCE : Nat := 1

/-- `MODE_STANDALONE_EXECVE`. -/
def MODE_STANDALONE_EXECVE : Nat := 2

/-- `MODE_STANDALONE_RERUN`. -/
def MODE_STANDALONE_RERUN : Nat := 3

/-- External collaborators of `configParseInternal`, passed as parameters:
`caps::nameToVal` (name→numeric capability lookup, `-1` on failure),
`cmdline::parseRLimit` (live soft/hard ceiling query), the id-mapping
validator behind `user::parseId`, and the validity check performed by
`mnt::addMountPtTail`. -/
structure Ext where
  nameToVal : String → Int
  parseRLimit : Nat → String → Nat → Nat
  validId : Option String → Option String → Nat → Bool → Bool → Bool
  validMount : MountOp → Bool

/-- `configRLimit` from `src/config.cc` lines 50–66: resolve one resource
ceiling from its policy variant. `uint64_t` multiplication wraps mod `2^64`. -/
def configRLimit (ext : Ext) (res : Nat) (rl : nsjail.RLimit) (val : Nat) (mul : Nat) : Nat :=
  match rl with
  | nsjail.RLimit.VALUE => (val * mul) % 2 ^ 64
  | nsjail.RLimit.SOFT => ext.parseRLimit res "soft" mul
  | nsjail.RLimit.HARD => ext.parseRLimit res "hard" mul
  | nsjail.RLimit.INF => RLIM64_INFINITY

/-- The `switch (njc.mode())` at lines 69–85 (the `default:` branch is
unreachable: the proto2 enum is closed, text parsing rejects unknown labels). -/
def modeMap : nsjail.Mode → Nat
  | nsjail.Mode.LISTEN => MODE_LISTEN_TCP
  | nsjail.Mode.ONCE => MODE_STANDALONE_ONCE
  | nsjail.Mode.RERUN => MODE_STANDALONE_RERUN
  | nsjail.Mode.EXECVE => MODE_STANDALONE_EXECVE

/-- The `switch (njc.log_level())` at lines 106–125 (`default:` likewise
unreachable for the closed proto2 enum). -/
def logLevelMap : nsjail.LogLevel → logs.log_level_t
  | nsjail.LogLevel.DEBUG => logs.log_level_t.DEBUG
  | nsjail.LogLevel.INFO => logs.log_level_t.INFO
  | nsjail.LogLevel.WARNING => logs.log_level_t.WARNING
  | nsjail.LogLevel.ERROR => logs.log_level_t.ERROR
  | nsjail.LogLevel.FATAL => logs.log_level_t.FATAL

/-- Lines 69–97: mode and the plain scalar assignments. -/
def phaseScalars (c : Nsjconf) (njc : nsjail.NsJailConfig) : Nsjconf :=
  let c := { c with mode := modeMap njc.mode }
  let c := match njc.chroot_dir with
    | some d => { c with chroot := d }
    | none => c
  { c with
    is_root_rw := njc.is_root_rw
    hostname := njc.hostname
    cwd := njc.cwd
    port := njc.port
    bindhost := njc.bindhost
    max_conns_per_ip := njc.max_conns_per_ip
    tlimit := njc.time_limit
    max_cpus := njc.max_cpus
    daemonize := njc.daemon }

/-- Lines 99–126: log destination (fd first, file overrides) and level. -/
def phaseLog (c : Nsjconf) (njc : nsjail.NsJailConfig) : Nsjconf :=
  let c := match njc.log_fd with
    | some fd => { c with logfile := "/dev/fd/" ++ toString fd }
    | none => c
  let c := match njc.log_file with
    | some f => { c with logfile := f }
    | none => c
  match njc.log_level with
  | some l => { c with loglevel := logLevelMap l }
  | none => c

/-- The `envs.push_back` loop at lines 129–131. -/
def envLoop (envs : List String) : List String → List String
  | [] => envs
  | e :: rest => envLoop (envs ++ [e]) rest

/-- Lines 128–131: `keep_env` and the environment loop. -/
def phaseEnv (c : Nsjconf) (njc : nsjail.NsJailConfig) : Nsjconf :=
  let c := { c with keep_env := njc.keep_env }
  { c with envs := envLoop c.envs njc.envar }

/-- The capability loop at lines 134–140: resolve each declared name via
`caps::nameToVal`; `-1` aborts, otherwise the value is appended. -/
def capsLoop (nameToVal : String → Int) (c : Nsjconf) : List String → Bool × Nsjconf
  | [] => (true, c)
  | n :: rest =>
    let cap := nameToVal n
    if cap = -1 then (false, c)
    else capsLoop nameToVal { c with caps := c.caps ++ [cap] } rest

/-- The `pass_fd` loop at lines 145–147: for each entry the loop index `i`
(not the configured descriptor number) is appended to `openfds`. -/
def passFdsLoop (fds : List Nat) (i : Nat) : List Nat → List Nat
  | [] => fds
  | _ :: rest => passFdsLoop (fds ++ [i]) (i + 1) rest

/-- Lines 142–186: silent/setsid, the `pass_fd` loop, no-new-privs, the seven
resource-limit resolutions, the personality ORs and the clone flags. -/
def phaseMisc (ext : Ext) (c : Nsjconf) (njc : nsjail.NsJailConfig) : Nsjconf :=
  let c := { c with is_silent := njc.silent, skip_setsid := njc.skip_setsid }
  let c := { c with openfds := passFdsLoop c.openfds 0 njc.pass_fd }
  let c := { c with disable_no_new_privs := njc.disable_no_new_privs }
  let c := { c with
    rl_as := configRLimit ext RLIMIT_AS njc.rlimit_as_type njc.rlimit_as (1024 * 1024)
    rl_core := configRLimit ext RLIMIT_CORE njc.rlimit_core_type njc.rlimit_core (1024 * 1024)
    rl_cpu := configRLimit ext RLIMIT_CPU njc.rlimit_cpu_type njc.rlimit_cpu 1
    rl_fsize := configRLimit ext RLIMIT_FSIZE njc.rlimit_fsize_type njc.rlimit_fsize (1024 * 1024)
    rl_nofile := configRLimit ext RLIMIT_NOFILE njc.rlimit_nofile_type njc.rlimit_nofile 1
    rl_nproc := configRLimit ext RLIMIT_NPROC njc.rlimit_nproc_type njc.rlimit_nproc 1
    rl_stack := configRLimit ext RLIMIT_STACK njc.rlimit_stack_type njc.rlimit_stack (1024 * 1024) }
  let c := if njc.persona_addr_compat_layout then
    { c with personality := c.personality ||| ADDR_COMPAT_LAYOUT } else c
  let c := if njc.persona_mmap_page_zero then
    { c with personality := c.personality ||| MMAP_PAGE_ZERO } else c
  let c := if njc.persona_read_implies_exec then
    { c with personality := c.personality ||| READ_IMPLIES_EXEC } else c
  let c := if njc.persona_addr_limit_3gb then
    { c with personality := c.personality ||| ADDR_LIMIT_3GB } else c
  let c := if njc.persona_addr_no_randomize then
    { c with personality := c.personality ||| ADDR_NO_RANDOMIZE } else c
  { c with
    clone_newnet := njc.clone_newnet
    clone_newuser := njc.clone_newuser
    clone_newns := njc.clone_newns
    clone_newpid := njc.clone_newpid
    clone_newipc := njc.clone_newipc
    clone_newuts := njc.clone_newuts
    clone_newcgroup := njc.clone_newcgroup }

/-- Modelled from the spec: `user::parseId` lives in `src/user.cc`, which is
not among the sources. Per §4.6 it validates one id-map entry through the
external id-mapping validator (here `ext.validId`), appends the accepted entry
to the config's uid or gid map, and reports the validator's pass/fail
verbatim, mutating nothing on failure. -/
def parseId (ext : Ext) (c : Nsjconf) (inside outside : Option String) (cnt : Nat)
    (is_gid : Bool) (newidmap : Bool) : Bool × Nsjconf :=
  if ext.validId inside outside cnt is_gid newidmap then
    if is_gid then
      (true, { c with gids := c.gids ++ [⟨inside, outside, cnt, newidmap⟩] })
    else
      (true, { c with uids := c.uids ++ [⟨inside, outside, cnt, newidmap⟩] })
  else (false, c)

/-- The uidmap/gidmap loops at lines 188–201: each entry's optional fields are
forwarded to `user::parseId` (`VAL_IF_SET_OR_NULL`); a failure aborts. -/
def idMapLoop (ext : Ext) (c : Nsjconf) (is_gid : Bool) : List nsjail.IdMap → Bool × Nsjconf
  | [] => (true, c)
  | e :: rest =>
    match parseId ext c e.inside_id e.outside_id e.count is_gid e.use_newidmap with
    | (false, c) => (false, c)
    | (true, c) => idMapLoop ext c is_gid rest

/-- Lines 203–205: `mount_proc == false` clears the implicit proc mount path. -/
def phaseProc (c : Nsjconf) (njc : nsjail.NsJailConfig) : Nsjconf :=
  if njc.mount_proc = false then { c with proc_path := "" } else c

/-- Lines 220–222: effective mount flags — `MS_RDONLY` unless `rw`, plus
`MS_BIND | MS_REC | MS_PRIVATE` for bind mounts. -/
def mountFlags (m : nsjail.MountPt) : Nat :=
  let flags := if m.rw = false then MS_RDONLY else 0
  flags ||| (if m.is_bind then MS_BIND ||| MS_REC ||| MS_PRIVATE else 0)

/-- Lines 224–227: the tri-state directory hint. -/
def mountIsDir (m : nsjail.MountPt) : mnt.isDir_t :=
  match m.is_dir with
  | some b => if b then mnt.isDir_t.NS_DIR_YES else mnt.isDir_t.NS_DIR_NO
  | none => mnt.isDir_t.NS_DIR_MAYBE

/-- Lines 206–235: the argument tuple one loop iteration passes to
`mnt::addMountPtTail`. -/
def mkMountOp (m : nsjail.MountPt) : MountOp :=
  { src := m.src
    dst := m.dst
    fstype := m.fstype
    options := m.options
    flags := mountFlags m
    isDir := mountIsDir m
    mandatory := m.mandatory
    src_env := m.prefix_src_env
    dst_env := m.prefix_dst_env
    src_content := m.src_content
    is_symlink := m.is_symlink }

/-- Modelled from the spec: `mnt::addMountPtTail` lives in `src/mnt.cc`, which
is not among the sources. Per §4.5/§3 the Mount Plan Builder appends each
operation at the tail of the ordered mount list, preserving declaration order
verbatim, and may reject an entry (here `ext.validMount`), appending nothing
in that case. -/
def addMountPtTail (ext : Ext) (c : Nsjconf) (op : MountOp) : Bool × Nsjconf :=
  if ext.validMount op then (true, { c with mounts := c.mounts ++ [op] })
  else (false, c)

/-- The mount loop at lines 206–242: build each descriptor's operation and
append it at the tail; a failed addition aborts. -/
def mountsLoop (ext : Ext) (c : Nsjconf) : List nsjail.MountPt → Bool × Nsjconf
  | [] => (true, c)
  | m :: rest =>
    match addMountPtTail ext c (mkMountOp m) with
    | (false, c) => (false, c)
    | (true, c) => mountsLoop ext c rest

/-- The seccomp-string loop at lines 247–250: each line is appended followed
by a newline. -/
def seccompLoop (s : String) : List String → String
  | [] => s
  | l :: rest => seccompLoop (s ++ l ++ "\n") rest

/-- Lines 244–250: seccomp policy file path and concatenated inline policy. -/
def phaseSeccomp (c : Nsjconf) (njc : nsjail.NsJailConfig) : Nsjconf :=
  let c := match njc.seccomp_policy_file with
    | some f => { c with kafel_file_path := f }
    | none => c
  { c with kafel_string := seccompLoop c.kafel_string njc.seccomp_string }

/-- Lines 252–260: cgroup placement parameters. -/
def phaseCgroup (c : Nsjconf) (njc : nsjail.NsJailConfig) : Nsjconf :=
  { c with
    cgroup_mem_max := njc.cgroup_mem_max
    cgroup_mem_mount := njc.cgroup_mem_mount
    cgroup_mem_parent := njc.cgroup_mem_parent
    cgroup_pids_max := njc.cgroup_pids_max
    cgroup_pids_mount := njc.cgroup_pids_mount
    cgroup_pids_parent := njc.cgroup_pids_parent
    cgroup_net_cls_classid := njc.cgroup_net_cls_classid
    cgroup_net_cls_mount := njc.cgroup_net_cls_mount
    cgroup_net_cls_parent := njc.cgroup_net_cls_parent }

/-- Lines 262–268: loopback toggle and macvlan interface parameters. -/
def phaseIface (c : Nsjconf) (njc : nsjail.NsJailConfig) : Nsjconf :=
  let c := { c with iface_lo := !njc.iface_no_lo }
  let c := match njc.macvlan_iface with
    | some s => { c with iface_vs := s }
    | none => c
  { c with
    iface_vs_ip := njc.macvlan_vs_ip
    iface_vs_nm := njc.macvlan_vs_nm
    iface_vs_gw := njc.macvlan_vs_gw }

/-- The argument loop at lines 278–280: push each declared argument. -/
def argvPushArgs (argv : List (Option String)) : List String → List (Option String)
  | [] => argv
  | a :: rest => argvPushArgs (argv ++ [some a]) rest

/-- Lines 270–284: the exec-spec step. `argv` is the process-lifetime
`static std::vector<const char*>` buffer, threaded explicitly; the code only
ever pushes to it and never clears it. Returns the updated config (whose
`argv` field is the buffer's data view) and the buffer. -/
def execSpecStep (c : Nsjconf) (argv : List (Option String)) (eb : nsjail.Exe) :
    Nsjconf × List (Option String) :=
  let (argv, c) := match eb.arg0 with
    | some a0 => (argv ++ [some a0], { c with exec_file := some eb.path })
    | none => (argv ++ [some eb.path], c)
  let argv := argvPushArgs argv eb.arg
  let argv := argv ++ [none]
  ({ c with argv := argv, use_execveat := eb.exec_fd }, argv)

/-- Lines 244–268: the unconditional phases after the mount loop. -/
def phasePost (c : Nsjconf) (njc : nsjail.NsJailConfig) : Nsjconf :=
  phaseIface (phaseCgroup (phaseSeccomp c njc) njc) njc

/-- Lines 244–287 of `configParseInternal`: seccomp/cgroup/iface phases, then
the exec-spec step; `s0` is the static argv buffer on entry. -/
def fromSeccomp (s0 : List (Option String)) (njc : nsjail.NsJailConfig)
    (c : Nsjconf) : Bool × Nsjconf × List (Option String) :=
  match njc.exec_bin with
  | some eb =>
    let p := execSpecStep (phasePost c njc) s0 eb
    (true, p.1, p.2)
  | none => (true, phasePost c njc, s0)

/-- Lines 203–287: proc suppression, the mount loop (aborting on a failed
addition), then the rest. -/
def fromMounts (ext : Ext) (s0 : List (Option String)) (njc : nsjail.NsJailConfig)
    (c : Nsjconf) : Bool × Nsjconf × List (Option String) :=
  match mountsLoop ext (phaseProc c njc) njc.mount with
  | (false, c) => (false, c, s0)
  | (true, c) => fromSeccomp s0 njc c

/-- Lines 195–287: the gidmap loop (aborting on a `parseId` failure), then
the rest. -/
def fromGidMaps (ext : Ext) (s0 : List (Option String)) (njc : nsjail.NsJailConfig)
    (c : Nsjconf) : Bool × Nsjconf × List (Option String) :=
  match idMapLoop ext c true njc.gidmap with
  | (false, c) => (false, c, s0)
  | (true, c) => fromMounts ext s0 njc c

/-- Lines 188–287: the uidmap loop (aborting on a `parseId` failure), then
the rest. -/
def fromUidMaps (ext : Ext) (s0 : List (Option String)) (njc : nsjail.NsJailConfig)
    (c : Nsjconf) : Bool × Nsjconf × List (Option String) :=
  match idMapLoop ext c false njc.uidmap with
  | (false, c) => (false, c, s0)
  | (true, c) => fromGidMaps ext s0 njc c

/-- Lines 69–133: the straight-line assignments before the capability loop
(scalars, logging, environment, `keep_caps`). -/
def phasePre (c0 : Nsjconf) (njc : nsjail.NsJailConfig) : Nsjconf :=
  { phaseEnv (phaseLog (phaseScalars c0 njc) njc) njc with keep_caps := njc.keep_caps }

/-- `configParseInternal` from `src/config.cc` lines 68–287. The C function
mutates `nsjconf` in place and returns `bool`; here the mutated structure and
the static argv buffer are threaded explicitly: the result is the returned
flag, the (possibly partially mutated) config, and the buffer. -/
def configParseInternal (ext : Ext) (c0 : Nsjconf) (s0 : List (Option String))
    (njc : nsjail.NsJailConfig) : Bool × Nsjconf × List (Option String) :=
  match capsLoop ext.nameToVal (phasePre c0 njc) njc.cap with
  | (false, c) => (false, c, s0)
  | (true, c) => fromUidMaps ext s0 njc (phaseMisc ext c njc)

/-- A concrete environment of external collaborators for evaluation: the
capability table knows only `CAP_NET_ADMIN`, the live-limit query returns `0`,
and both validators accept everything. -/
def ext0 : Ext :=
  { nameToVal := fun n => if n = "CAP_NET_ADMIN" then 12 else -1
    parseRLimit := fun _ _ _ => 0
    validId := fun _ _ _ _ _ => true
    validMount := fun _ => true }

/-- A concrete caller-side `nsjconf_t` before compilation (as `cmdline.cc`
would have initialized it: proc mounted at `/proc`, everything else empty). -/
def c00 : Nsjconf :=
  { mode := MODE_STANDALONE_ONCE
    chroot := ""
    is_root_rw := false
    hostname := "NSJAIL"
    cwd := "/"
    port := 0
    bindhost := ""
    max_conns_per_ip := 0
    tlimit := 0
    max_cpus := 0
    daemonize := false
    logfile := ""
    loglevel := logs.log_level_t.INFO
    keep_env := false
    envs := []
    keep_caps := false
    caps := []
    is_silent := false
    skip_setsid := false
    openfds := []
    disable_no_new_privs := false
    rl_as := 0
    rl_core := 0
    rl_cpu := 0
    rl_fsize := 0
    rl_nofile := 0
    rl_nproc := 0
    rl_stack := 0
    personality := 0
    clone_newnet := false
    clone_newuser := false
    clone_newns := false
    clone_newpid := false
    clone_newipc := false
    clone_newuts := false
    clone_newcgroup := false
    uids := []
    gids := []
    proc_path := "/proc"
    mounts := []
    kafel_file_path := ""
    kafel_string := ""
    cgroup_mem_max := 0
    cgroup_mem_mount := ""
    cgroup_mem_parent := ""
    cgroup_pids_max := 0
    cgroup_pids_mount := ""
    cgroup_pids_parent := ""
    cgroup_net_cls_classid := 0
    cgroup_net_cls_mount := ""
    cgroup_net_cls_parent := ""
    iface_lo := true
    iface_vs := ""
    iface_vs_ip := ""
    iface_vs_nm := ""
    iface_vs_gw := ""
    exec_file := none
    argv := []
    use_execveat := false }

/-- A concrete minimal declarative config (proto2 defaults). -/
def njcBase : nsjail.NsJailConfig :=
  { mode := nsjail.Mode.ONCE
    chroot_dir := none
    is_root_rw := false
    hostname := "NSJAIL"
    cwd := "/"
    port := 0
    bindhost := ""
    max_conns_per_ip := 0
    time_limit := 0
    max_cpus := 0
    daemon := false
    log_fd := none
    log_file := none
    log_level := none
    keep_env := false
    envar := []
    keep_caps := false
    cap := []
    silent := false
    skip_setsid := false
    pass_fd := []
    disable_no_new_privs := false
    rlimit_as := 0
    rlimit_as_type := nsjail.RLimit.VALUE
    rlimit_core := 0
    rlimit_core_type := nsjail.RLimit.VALUE
    rlimit_cpu := 0
    rlimit_cpu_type := nsjail.RLimit.VALUE
    rlimit_fsize := 0
    rlimit_fsize_type := nsjail.RLimit.VALUE
    rlimit_nofile := 0
    rlimit_nofile_type := nsjail.RLimit.VALUE
    rlimit_nproc := 0
    rlimit_nproc_type := nsjail.RLimit.VALUE
    rlimit_stack := 0
    rlimit_stack_type := nsjail.RLimit.VALUE
    persona_addr_compat_layout := false
    persona_mmap_page_zero := false
    persona_read_implies_exec := false
    persona_addr_limit_3gb := false
    persona_addr_no_randomize := false
    clone_newnet := false
    clone_newuser := false
    clone_newns := false
    clone_newpid := false
    clone_newipc := false
    clone_newuts := false
    clone_newcgroup := false
    uidmap := []
    gidmap := []
    mount_proc := true
    mount := []
    seccomp_policy_file := none
    seccomp_string := []
    cgroup_mem_max := 0
    cgroup_mem_mount := ""
    cgroup_mem_parent := ""
    cgroup_pids_max := 0
    cgroup_pids_mount := ""
    cgroup_pids_parent := ""
    cgroup_net_cls_classid := 0
    cgroup_net_cls_mount := ""
    cgroup_net_cls_parent := ""
    iface_no_lo := false
    macvlan_iface := none
    macvlan_vs_ip := ""
    macvlan_vs_nm := ""
    macvlan_vs_gw := ""
    exec_bin := none }

/-- The spec's concrete exec descriptor: path `/bin/sh`, no `arg0` override,
arguments `-c id`. -/
def exeSh : nsjail.Exe :=
  { path := "/bin/sh", arg := ["-c", "id"], arg0 := none, exec_fd := false }

/-- `njcBase` with the `/bin/sh -c id` exec descriptor declared. -/
def njcExec : nsjail.NsJailConfig := { njcBase with exec_bin := some exeSh }

/-- `njcBase` in `LISTEN` mode with one unresolvable capability name. -/
def njcBadCap : nsjail.NsJailConfig :=
  { njcBase with mode := nsjail.Mode.LISTEN, cap := ["CAP_NO_SUCH_THING"] }

/-- A concrete read-only bind-mount descriptor. -/
def mptLib : nsjail.MountPt :=
  { src := some "/lib"
    prefix_src_env := none
    src_content := none
    dst := some "/lib"
    prefix_dst_env := none
    fstype := none
    options := none
    is_bind := true
    rw := false
    is_dir := some true
    mandatory := true
    is_symlink := false }

/-- A concrete explicit proc mount descriptor (same destination as the
implicit proc entry). -/
def mptProc : nsjail.MountPt :=
  { src := none
    prefix_src_env := none
    src_content := none
    dst := some "/proc"
    prefix_dst_env := none
    fstype := some "proc"
    options := none
    is_bind := false
    rw := true
    is_dir := some true
    mandatory := true
    is_symlink := false }

/-- `njcBase` with proc-mount suppression on and two explicit mounts, one of
them with destination `/proc`. -/
def njcMounts : nsjail.NsJailConfig :=
  { njcBase with mount_proc := false, mount := [mptLib, mptProc] }

/-- `njcBase` declaring three pass-fd entries with arbitrary descriptor
numbers. -/
def njcFds : nsjail.NsJailConfig := { njcBase with pass_fd := [5, 22, 7] }

/-- A concrete mount descriptor with a literal source, no writable toggle and
no bind flag. -/
def mptRo : nsjail.MountPt :=
  { src := some "/etc/resolv.conf"
    prefix_src_env := none
    src_content := none
    dst := some "/etc/resolv.conf"
    prefix_dst_env := none
    fstype := none
    options := none
    is_bind := false
    rw := false
    is_dir := some false
    mandatory := true
    is_symlink := false }

/-! ### Effect lemmas for the loops -/

theorem argvPushArgs_eq (l : List String) :
    ∀ argv, argvPushArgs argv l = argv ++ l.map some := by
  induction l with
  | nil => intro argv; simp [argvPushArgs]
  | cons a rest ih => intro argv; simp [argvPushArgs, ih]

theorem passFdsLoop_eq (l : List Nat) :
    ∀ fds i, passFdsLoop fds i l = fds ++ List.range' i l.length := by
  induction l with
  | nil => intro fds i; simp [passFdsLoop]
  | cons a rest ih =>
    intro fds i
    simp only [passFdsLoop, ih, List.length_cons, List.range'_succ, List.append_assoc,
      List.singleton_append]

theorem capsLoop_keeps (ntv : String → Int) (l : List String) : ∀ c : Nsjconf,
    (capsLoop ntv c l).2.openfds = c.openfds ∧ (capsLoop ntv c l).2.mounts = c.mounts ∧
    (capsLoop ntv c l).2.proc_path = c.proc_path ∧
    (capsLoop ntv c l).2.exec_file = c.exec_file ∧ (capsLoop ntv c l).2.argv = c.argv ∧
    (capsLoop ntv c l).2.use_execveat = c.use_execveat := by
  induction l with
  | nil => intro c; exact ⟨rfl, rfl, rfl, rfl, rfl, rfl⟩
  | cons n rest ih =>
    intro c
    unfold capsLoop
    by_cases h : ntv n = -1
    · simp [h]
    · simpa [h] using ih { c with caps := c.caps ++ [ntv n] }

theorem capsLoop_fails (ntv : String → Int) (l : List String) : ∀ c : Nsjconf,
    (∃ n ∈ l, ntv n = -1) → (capsLoop ntv c l).1 = false := by
  induction l with
  | nil => intro c h; simp at h
  | cons n rest ih =>
    intro c h
    unfold capsLoop
    by_cases hn : ntv n = -1
    · simp [hn]
    · rcases h with ⟨m, hm, hv⟩
      rcases List.mem_cons.mp hm with h1 | h1
      · exact absurd (h1 ▸ hv) hn
      · simpa [hn] using ih _ ⟨m, h1, hv⟩

theorem capsLoop_no_sentinel (ntv : String → Int) (l : List String) : ∀ c : Nsjconf,
    (-1 : Int) ∉ c.caps → (-1 : Int) ∉ (capsLoop ntv c l).2.caps := by
  induction l with
  | nil => intro c h; exact h
  | cons n rest ih =>
    intro c h
    unfold capsLoop
    by_cases hn : ntv n = -1
    · simpa [hn] using h
    · have hmem : (-1 : Int) ∉ c.caps ++ [ntv n] := by
        simp only [List.mem_append, List.mem_singleton]
        rintro (h1 | h1)
        · exact h h1
        · exact hn h1.symm
      simpa [hn] using ih { c with caps := c.caps ++ [ntv n] } hmem

theorem capsLoop_caps_mem (ntv : String → Int) (l : List String) : ∀ c : Nsjconf,
    ∀ x ∈ (capsLoop ntv c l).2.caps,
    x ∈ c.caps ∨ ∃ m ∈ l, ntv m = x ∧ x ≠ -1 := by
  induction l with
  | nil => intro c x hx; exact Or.inl hx
  | cons n rest ih =>
    intro c x hx
    unfold capsLoop at hx
    by_cases hn : ntv n = -1
    · simp only [hn, if_pos rfl] at hx
      exact Or.inl hx
    · rw [if_neg hn] at hx
      rcases ih { c with caps := c.caps ++ [ntv n] } x hx with h1 | ⟨m, hm, hv, hne⟩
      · simp only [List.mem_append, List.mem_singleton] at h1
        rcases h1 with h1 | h1
        · exact Or.inl h1
        · exact Or.inr ⟨n, List.mem_cons_self n rest, h1.symm, h1 ▸ hn⟩
      · exact Or.inr ⟨m, List.mem_cons_of_mem n hm, hv, hne⟩

theorem idMapLoop_keeps (ext : Ext) (g : Bool) (l : List nsjail.IdMap) : ∀ c : Nsjconf,
    (idMapLoop ext c g l).2.openfds = c.openfds ∧ (idMapLoop ext c g l).2.mounts = c.mounts ∧
    (idMapLoop ext c g l).2.proc_path = c.proc_path ∧
    (idMapLoop ext c g l).2.exec_file = c.exec_file ∧ (idMapLoop ext c g l).2.argv = c.argv ∧
    (idMapLoop ext c g l).2.use_execveat = c.use_execveat := by
  induction l with
  | nil => intro c; exact ⟨rfl, rfl, rfl, rfl, rfl, rfl⟩
  | cons e rest ih =>
    intro c
    unfold idMapLoop parseId
    by_cases hv : ext.validId e.inside_id e.outside_id e.count g e.use_newidmap
    · cases g
      · simpa [hv] using ih { c with uids := c.uids ++ [⟨e.inside_id, e.outside_id, e.count, e.use_newidmap⟩] }
      · simpa [hv] using ih { c with gids := c.gids ++ [⟨e.inside_id, e.outside_id, e.count, e.use_newidmap⟩] }
    · simp [hv]

theorem mountsLoop_keeps (ext : Ext) (l : List nsjail.MountPt) : ∀ c : Nsjconf,
    (mountsLoop ext c l).2.openfds = c.openfds ∧
    (mountsLoop ext c l).2.proc_path = c.proc_path ∧
    (mountsLoop ext c l).2.exec_file = c.exec_file ∧ (mountsLoop ext c l).2.argv = c.argv ∧
    (mountsLoop ext c l).2.use_execveat = c.use_execveat := by
  induction l with
  | nil => intro c; exact ⟨rfl, rfl, rfl, rfl, rfl⟩
  | cons m rest ih =>
    intro c
    unfold mountsLoop addMountPtTail
    by_cases hv : ext.validMount (mkMountOp m)
    · simpa [hv] using ih { c with mounts := c.mounts ++ [mkMountOp m] }
    · simp [hv]

theorem mountsLoop_mounts (ext : Ext) (l : List nsjail.MountPt) : ∀ c : Nsjconf,
    (mountsLoop ext c l).1 = true →
    (mountsLoop ext c l).2.mounts = c.mounts ++ l.map mkMountOp := by
  induction l with
  | nil => intro c _; simp [mountsLoop]
  | cons m rest ih =>
    intro c h
    unfold mountsLoop addMountPtTail at h ⊢
    by_cases hv : ext.validMount (mkMountOp m)
    · have := ih { c with mounts := c.mounts ++ [mkMountOp m] } (by simpa [hv] using h)
      simpa [hv, List.append_assoc] using this
    · simp [hv] at h

/-! ### Effect lemmas for the exec-spec step -/

theorem execSpecStep_keeps (c : Nsjconf) (s : List (Option String)) (eb : nsjail.Exe) :
    (execSpecStep c s eb).1.openfds = c.openfds ∧
    (execSpecStep c s eb).1.mounts = c.mounts ∧
    (execSpecStep c s eb).1.proc_path = c.proc_path ∧
    (execSpecStep c s eb).1.caps = c.caps := by
  unfold execSpecStep
  cases eb.arg0 <;> exact ⟨rfl, rfl, rfl, rfl⟩

theorem execSpecStep_argv_eq_buf (c : Nsjconf) (s : List (Option String)) (eb : nsjail.Exe) :
    (execSpecStep c s eb).1.argv = (execSpecStep c s eb).2 := by
  unfold execSpecStep
  cases eb.arg0 <;> rfl

theorem execSpecStep_buf (c : Nsjconf) (s : List (Option String)) (eb : nsjail.Exe) :
    (execSpecStep c s eb).2 =
      s ++ (match eb.arg0 with
            | some a0 => some a0
            | none => some eb.path) :: (eb.arg.map some ++ [none]) := by
  unfold execSpecStep
  cases eb.arg0 <;> simp [argvPushArgs_eq]

theorem execSpecStep_exec_file_none (c : Nsjconf) (s : List (Option String)) (eb : nsjail.Exe)
    (h : eb.arg0 = none) : (execSpecStep c s eb).1.exec_file = c.exec_file := by
  unfold execSpecStep
  rw [h]

theorem execSpecStep_exec_file_some (c : Nsjconf) (s : List (Option String)) (eb : nsjail.Exe)
    (a0 : String) (h : eb.arg0 = some a0) :
    (execSpecStep c s eb).1.exec_file = some eb.path := by
  unfold execSpecStep
  rw [h]

/-! ### Frame lemmas for the pure phases -/

theorem phaseScalars_keeps (c : Nsjconf) (njc : nsjail.NsJailConfig) :
    (phaseScalars c njc).caps = c.caps ∧ (phaseScalars c njc).openfds = c.openfds ∧
    (phaseScalars c njc).mounts = c.mounts ∧ (phaseScalars c njc).proc_path = c.proc_path ∧
    (phaseScalars c njc).exec_file = c.exec_file ∧ (phaseScalars c njc).argv = c.argv ∧
    (phaseScalars c njc).use_execveat = c.use_execveat := by
  unfold phaseScalars
  cases njc.chroot_dir <;> exact ⟨rfl, rfl, rfl, rfl, rfl, rfl, rfl⟩

theorem phaseLog_keeps (c : Nsjconf) (njc : nsjail.NsJailConfig) :
    (phaseLog c njc).caps = c.caps ∧ (phaseLog c njc).openfds = c.openfds ∧
    (phaseLog c njc).mounts = c.mounts ∧ (phaseLog c njc).proc_path = c.proc_path ∧
    (phaseLog c njc).exec_file = c.exec_file ∧ (phaseLog c njc).argv = c.argv ∧
    (phaseLog c njc).use_execveat = c.use_execveat := by
  unfold phaseLog
  cases njc.log_fd <;> cases njc.log_file <;> cases njc.log_level <;>
    exact ⟨rfl, rfl, rfl, rfl, rfl, rfl, rfl⟩

theorem phaseEnv_keeps (c : Nsjconf) (njc : nsjail.NsJailConfig) :
    (phaseEnv c njc).caps = c.caps ∧ (phaseEnv c njc).openfds = c.openfds ∧
    (phaseEnv c njc).mounts = c.mounts ∧ (phaseEnv c njc).proc_path = c.proc_path ∧
    (phaseEnv c njc).exec_file = c.exec_file ∧ (phaseEnv c njc).argv = c.argv ∧
    (phaseEnv c njc).use_execveat = c.use_execveat := by
  unfold phaseEnv
  exact ⟨rfl, rfl, rfl, rfl, rfl, rfl, rfl⟩

theorem phaseMisc_keeps (ext : Ext) (c : Nsjconf) (njc : nsjail.NsJailConfig) :
    (phaseMisc ext c njc).mounts = c.mounts ∧ (phaseMisc ext c njc).proc_path = c.proc_path ∧
    (phaseMisc ext c njc).exec_file = c.exec_file ∧ (phaseMisc ext c njc).argv = c.argv ∧
    (phaseMisc ext c njc).use_execveat = c.use_execveat ∧
    (phaseMisc ext c njc).openfds = passFdsLoop c.openfds 0 njc.pass_fd := by
  unfold phaseMisc
  cases hp1 : njc.persona_addr_compat_layout <;>
    cases hp2 : njc.persona_mmap_page_zero <;>
    cases hp3 : njc.persona_read_implies_exec <;>
    cases hp4 : njc.persona_addr_limit_3gb <;>
    cases hp5 : njc.persona_addr_no_randomize <;>
    simp

theorem phaseProc_keeps (c : Nsjconf) (njc : nsjail.NsJailConfig) :
    (phaseProc c njc).openfds = c.openfds ∧ (phaseProc c njc).mounts = c.mounts ∧
    (phaseProc c njc).exec_file = c.exec_file ∧ (phaseProc c njc).argv = c.argv ∧
    (phaseProc c njc).use_execveat = c.use_execveat ∧
    (phaseProc c njc).proc_path = (if njc.mount_proc = false then "" else c.proc_path) := by
  unfold phaseProc
  by_cases h : njc.mount_proc = false <;> simp [h]

theorem phaseSeccomp_keeps (c : Nsjconf) (njc : nsjail.NsJailConfig) :
    (phaseSeccomp c njc).openfds = c.openfds ∧ (phaseSeccomp c njc).mounts = c.mounts ∧
    (phaseSeccomp c njc).proc_path = c.proc_path ∧
    (phaseSeccomp c njc).exec_file = c.exec_file ∧ (phaseSeccomp c njc).argv = c.argv ∧
    (phaseSeccomp c njc).use_execveat = c.use_execveat := by
  unfold phaseSeccomp
  cases njc.seccomp_policy_file <;> exact ⟨rfl, rfl, rfl, rfl, rfl, rfl⟩

theorem phaseCgroup_keeps (c : Nsjconf) (njc : nsjail.NsJailConfig) :
    (phaseCgroup c njc).openfds = c.openfds ∧ (phaseCgroup c njc).mounts = c.mounts ∧
    (phaseCgroup c njc).proc_path = c.proc_path ∧
    (phaseCgroup c njc).exec_file = c.exec_file ∧ (phaseCgroup c njc).argv = c.argv ∧
    (phaseCgroup c njc).use_execveat = c.use_execveat := by
  unfold phaseCgroup
  exact ⟨rfl, rfl, rfl, rfl, rfl, rfl⟩

theorem phasePre_keeps (c0 : Nsjconf) (njc : nsjail.NsJailConfig) :
    (phasePre c0 njc).caps = c0.caps ∧ (phasePre c0 njc).openfds = c0.openfds ∧
    (phasePre c0 njc).mounts = c0.mounts ∧ (phasePre c0 njc).proc_path = c0.proc_path ∧
    (phasePre c0 njc).exec_file = c0.exec_file ∧ (phasePre c0 njc).argv = c0.argv ∧
    (phasePre c0 njc).use_execveat = c0.use_execveat := by
  obtain ⟨hsc, hso, hsm, hsp, hsf, hsa, hsu⟩ := phaseScalars_keeps c0 njc
  obtain ⟨l1c, l1o, l1m, l1p, l1f, l1a, l1u⟩ := phaseLog_keeps (phaseScalars c0 njc) njc
  obtain ⟨e1c, e1o, e1m, e1p, e1f, e1a, e1u⟩ :=
    phaseEnv_keeps (phaseLog (phaseScalars c0 njc) njc) njc
  unfold phasePre
  refine ⟨?_, ?_, ?_, ?_, ?_, ?_, ?_⟩ <;> simp_all

theorem phaseIface_keeps (c : Nsjconf) (njc : nsjail.NsJailConfig) :
    (phaseIface c njc).openfds = c.openfds ∧ (phaseIface c njc).mounts = c.mounts ∧
    (phaseIface c njc).proc_path = c.proc_path ∧
    (phaseIface c njc).exec_file = c.exec_file ∧ (phaseIface c njc).argv = c.argv ∧
    (phaseIface c njc).use_execveat = c.use_execveat := by
  unfold phaseIface
  cases njc.macvlan_iface <;> exact ⟨rfl, rfl, rfl, rfl, rfl, rfl⟩

theorem phasePost_keeps (c : Nsjconf) (njc : nsjail.NsJailConfig) :
    (phasePost c njc).openfds = c.openfds ∧ (phasePost c njc).mounts = c.mounts ∧
    (phasePost c njc).proc_path = c.proc_path ∧
    (phasePost c njc).exec_file = c.exec_file ∧ (phasePost c njc).argv = c.argv ∧
    (phasePost c njc).use_execveat = c.use_execveat := by
  obtain ⟨s1, s2, s3, s4, s5, s6⟩ := phaseSeccomp_keeps c njc
  obtain ⟨g1, g2, g3, g4, g5, g6⟩ := phaseCgroup_keeps (phaseSeccomp c njc) njc
  obtain ⟨f1, f2, f3, f4, f5, f6⟩ := phaseIface_keeps (phaseCgroup (phaseSeccomp c njc) njc) njc
  unfold phasePost
  exact ⟨f1.trans (g1.trans s1), f2.trans (g2.trans s2), f3.trans (g3.trans s3),
    f4.trans (g4.trans s4), f5.trans (g5.trans s5), f6.trans (g6.trans s6)⟩

/-! ### Cascade lemmas: one per sequential stage of `configParseInternal` -/

theorem fromSeccomp_spec (s0 : List (Option String)) (njc : nsjail.NsJailConfig)
    (c : Nsjconf) :
    (fromSeccomp s0 njc c).1 = true ∧
    (fromSeccomp s0 njc c).2.1.mounts = c.mounts ∧
    (fromSeccomp s0 njc c).2.1.proc_path = c.proc_path ∧
    (fromSeccomp s0 njc c).2.1.openfds = c.openfds ∧
    (njc.exec_bin = none → (fromSeccomp s0 njc c).2.1.exec_file = c.exec_file) ∧
    (∀ eb, njc.exec_bin = some eb →
      (eb.arg0 = none → (fromSeccomp s0 njc c).2.1.exec_file = c.exec_file) ∧
      (fromSeccomp s0 njc c).2.1.argv =
        s0 ++ (match eb.arg0 with
               | some a0 => some a0
               | none => some eb.path) :: (eb.arg.map some ++ [none])) := by
  obtain ⟨poO, poM, poP, poF, poA, poU⟩ := phasePost_keeps c njc
  unfold fromSeccomp
  rcases hx : njc.exec_bin with _ | eb
  · refine ⟨rfl, poM, poP, poO, fun _ => poF, fun eb hne => ?_⟩
    exact absurd hne (by simp)
  · obtain ⟨e1, e2, e3, _⟩ := execSpecStep_keeps (phasePost c njc) s0 eb
    refine ⟨rfl, e2.trans poM, e3.trans poP, e1.trans poO, fun hne => absurd hne (by simp),
      fun eb' heq => ?_⟩
    obtain rfl : eb = eb' := by injection heq
    refine ⟨fun h0 => (execSpecStep_exec_file_none _ _ _ h0).trans poF, ?_⟩
    exact (execSpecStep_argv_eq_buf _ _ _).trans (execSpecStep_buf _ _ _)

theorem fromMounts_false (ext : Ext) (s0 : List (Option String))
    (njc : nsjail.NsJailConfig) (c : Nsjconf)
    (h : (fromMounts ext s0 njc c).1 = false) :
    (fromMounts ext s0 njc c).2.1.argv = c.argv ∧
    (fromMounts ext s0 njc c).2.1.exec_file = c.exec_file ∧
    (fromMounts ext s0 njc c).2.1.use_execveat = c.use_execveat ∧
    (fromMounts ext s0 njc c).2.2 = s0 := by
  obtain ⟨pO, pM, pF, pA, pU, pP⟩ := phaseProc_keeps c njc
  unfold fromMounts at h ⊢
  rcases h3 : mountsLoop ext (phaseProc c njc) njc.mount with ⟨b3, c3⟩
  rw [h3] at h
  obtain ⟨o1, o2, o3, o4, o5⟩ := mountsLoop_keeps ext njc.mount (phaseProc c njc)
  rw [h3] at o1 o2 o3 o4 o5
  cases b3 with
  | false => exact ⟨o4.trans pA, o3.trans pF, o5.trans pU, rfl⟩
  | true =>
    have h' : (fromSeccomp s0 njc c3).1 = false := h
    rw [(fromSeccomp_spec s0 njc c3).1] at h'
    cases h'

theorem fromMounts_true (ext : Ext) (s0 : List (Option String))
    (njc : nsjail.NsJailConfig) (c : Nsjconf)
    (h : (fromMounts ext s0 njc c).1 = true) :
    (fromMounts ext s0 njc c).2.1.mounts = c.mounts ++ njc.mount.map mkMountOp ∧
    (fromMounts ext s0 njc c).2.1.proc_path =
      (if njc.mount_proc = false then "" else c.proc_path) ∧
    (fromMounts ext s0 njc c).2.1.openfds = c.openfds ∧
    (njc.exec_bin = none → (fromMounts ext s0 njc c).2.1.exec_file = c.exec_file) ∧
    (∀ eb, njc.exec_bin = some eb →
      (eb.arg0 = none → (fromMounts ext s0 njc c).2.1.exec_file = c.exec_file) ∧
      (fromMounts ext s0 njc c).2.1.argv =
        s0 ++ (match eb.arg0 with
               | some a0 => some a0
               | none => some eb.path) :: (eb.arg.map some ++ [none])) := by
  obtain ⟨pO, pM, pF, pA, pU, pP⟩ := phaseProc_keeps c njc
  unfold fromMounts at h ⊢
  rcases h3 : mountsLoop ext (phaseProc c njc) njc.mount with ⟨b3, c3⟩
  rw [h3] at h
  obtain ⟨o1, o2, o3, o4, o5⟩ := mountsLoop_keeps ext njc.mount (phaseProc c njc)
  have hm := mountsLoop_mounts ext njc.mount (phaseProc c njc)
  rw [h3] at o1 o2 o3 o4 o5 hm
  cases b3 with
  | false => cases h
  | true =>
    obtain ⟨sT, sM, sP, sO, sN, sS⟩ := fromSeccomp_spec s0 njc c3
    have hmm : c3.mounts = c.mounts ++ njc.mount.map mkMountOp := by
      rw [hm rfl, pM]
    refine ⟨sM.trans hmm, sP.trans (o2.trans pP), sO.trans (o1.trans pO),
      fun hne => (sN hne).trans (o3.trans pF), fun eb heq => ?_⟩
    obtain ⟨w1, w2⟩ := sS eb heq
    exact ⟨fun h0 => (w1 h0).trans (o3.trans pF), w2⟩

theorem fromGidMaps_false (ext : Ext) (s0 : List (Option String))
    (njc : nsjail.NsJailConfig) (c : Nsjconf)
    (h : (fromGidMaps ext s0 njc c).1 = false) :
    (fromGidMaps ext s0 njc c).2.1.argv = c.argv ∧
    (fromGidMaps ext s0 njc c).2.1.exec_file = c.exec_file ∧
    (fromGidMaps ext s0 njc c).2.1.use_execveat = c.use_execveat ∧
    (fromGidMaps ext s0 njc c).2.2 = s0 := by
  unfold fromGidMaps at h ⊢
  rcases h2 : idMapLoop ext c true njc.gidmap with ⟨b2, c2⟩
  rw [h2] at h
  obtain ⟨i1, i2, i3, i4, i5, i6⟩ := idMapLoop_keeps ext true njc.gidmap c
  rw [h2] at i1 i2 i3 i4 i5 i6
  cases b2 with
  | false => exact ⟨i5, i4, i6, rfl⟩
  | true =>
    have h' : (fromMounts ext s0 njc c2).1 = false := h
    obtain ⟨w1, w2, w3, w4⟩ := fromMounts_false ext s0 njc c2 h'
    exact ⟨w1.trans i5, w2.trans i4, w3.trans i6, w4⟩

theorem fromGidMaps_true (ext : Ext) (s0 : List (Option String))
    (njc : nsjail.NsJailConfig) (c : Nsjconf)
    (h : (fromGidMaps ext s0 njc c).1 = true) :
    (fromGidMaps ext s0 njc c).2.1.mounts = c.mounts ++ njc.mount.map mkMountOp ∧
    (fromGidMaps ext s0 njc c).2.1.proc_path =
      (if njc.mount_proc = false then "" else c.proc_path) ∧
    (fromGidMaps ext s0 njc c).2.1.openfds = c.openfds ∧
    (njc.exec_bin = none → (fromGidMaps ext s0 njc c).2.1.exec_file = c.exec_file) ∧
    (∀ eb, njc.exec_bin = some eb →
      (eb.arg0 = none → (fromGidMaps ext s0 njc c).2.1.exec_file = c.exec_file) ∧
      (fromGidMaps ext s0 njc c).2.1.argv =
        s0 ++ (match eb.arg0 with
               | some a0 => some a0
               | none => some eb.path) :: (eb.arg.map some ++ [none])) := by
  unfold fromGidMaps at h ⊢
  rcases h2 : idMapLoop ext c true njc.gidmap with ⟨b2, c2⟩
  rw [h2] at h
  obtain ⟨i1, i2, i3, i4, i5, i6⟩ := idMapLoop_keeps ext true njc.gidmap c
  rw [h2] at i1 i2 i3 i4 i5 i6
  cases b2 with
  | false => cases h
  | true =>
    have h' : (fromMounts ext s0 njc c2).1 = true := h
    obtain ⟨w1, w2, w3, w4, w5⟩ := fromMounts_true ext s0 njc c2 h'
    refine ⟨w1.trans (by rw [i2]), w2.trans (by rw [i3]), w3.trans i1,
      fun hne => (w4 hne).trans i4, fun eb heq => ?_⟩
    obtain ⟨v1, v2⟩ := w5 eb heq
    exact ⟨fun h0 => (v1 h0).trans i4, v2⟩

theorem fromUidMaps_false (ext : Ext) (s0 : List (Option String))
    (njc : nsjail.NsJailConfig) (c : Nsjconf)
    (h : (fromUidMaps ext s0 njc c).1 = false) :
    (fromUidMaps ext s0 njc c).2.1.argv = c.argv ∧
    (fromUidMaps ext s0 njc c).2.1.exec_file = c.exec_file ∧
    (fromUidMaps ext s0 njc c).2.1.use_execveat = c.use_execveat ∧
    (fromUidMaps ext s0 njc c).2.2 = s0 := by
  unfold fromUidMaps at h ⊢
  rcases h1 : idMapLoop ext c false njc.uidmap with ⟨b1, c1⟩
  rw [h1] at h
  obtain ⟨i1, i2, i3, i4, i5, i6⟩ := idMapLoop_keeps ext false njc.uidmap c
  rw [h1] at i1 i2 i3 i4 i5 i6
  cases b1 with
  | false => exact ⟨i5, i4, i6, rfl⟩
  | true =>
    have h' : (fromGidMaps ext s0 njc c1).1 = false := h
    obtain ⟨w1, w2, w3, w4⟩ := fromGidMaps_false ext s0 njc c1 h'
    exact ⟨w1.trans i5, w2.trans i4, w3.trans i6, w4⟩

theorem fromUidMaps_true (ext : Ext) (s0 : List (Option String))
    (njc : nsjail.NsJailConfig) (c : Nsjconf)
    (h : (fromUidMaps ext s0 njc c).1 = true) :
    (fromUidMaps ext s0 njc c).2.1.mounts = c.mounts ++ njc.mount.map mkMountOp ∧
    (fromUidMaps ext s0 njc c).2.1.proc_path =
      (if njc.mount_proc = false then "" else c.proc_path) ∧
    (fromUidMaps ext s0 njc c).2.1.openfds = c.openfds ∧
    (njc.exec_bin = none → (fromUidMaps ext s0 njc c).2.1.exec_file = c.exec_file) ∧
    (∀ eb, njc.exec_bin = some eb →
      (eb.arg0 = none → (fromUidMaps ext s0 njc c).2.1.exec_file = c.exec_file) ∧
      (fromUidMaps ext s0 njc c).2.1.argv =
        s0 ++ (match eb.arg0 with
               | some a0 => some a0
               | none => some eb.path) :: (eb.arg.map some ++ [none])) := by
  unfold fromUidMaps at h ⊢
  rcases h1 : idMapLoop ext c false njc.uidmap with ⟨b1, c1⟩
  rw [h1] at h
  obtain ⟨i1, i2, i3, i4, i5, i6⟩ := idMapLoop_keeps ext false njc.uidmap c
  rw [h1] at i1 i2 i3 i4 i5 i6
  cases b1 with
  | false => cases h
  | true =>
    have h' : (fromGidMaps ext s0 njc c1).1 = true := h
    obtain ⟨w1, w2, w3, w4, w5⟩ := fromGidMaps_true ext s0 njc c1 h'
    refine ⟨w1.trans (by rw [i2]), w2.trans (by rw [i3]), w3.trans i1,
      fun hne => (w4 hne).trans i4, fun eb heq => ?_⟩
    obtain ⟨v1, v2⟩ := w5 eb heq
    exact ⟨fun h0 => (v1 h0).trans i4, v2⟩

theorem configParse_false_frame (ext : Ext) (c0 : Nsjconf) (s0 : List (Option String))
    (njc : nsjail.NsJailConfig)
    (h : (configParseInternal ext c0 s0 njc).1 = false) :
    (configParseInternal ext c0 s0 njc).2.1.argv = c0.argv ∧
    (configParseInternal ext c0 s0 njc).2.1.exec_file = c0.exec_file ∧
    (configParseInternal ext c0 s0 njc).2.1.use_execveat = c0.use_execveat ∧
    (configParseInternal ext c0 s0 njc).2.2 = s0 := by
  obtain ⟨pC, pO, pM, pP, pF, pA, pU⟩ := phasePre_keeps c0 njc
  unfold configParseInternal at h ⊢
  rcases hc : capsLoop ext.nameToVal (phasePre c0 njc) njc.cap with ⟨b, c1⟩
  rw [hc] at h
  obtain ⟨k1, k2, k3, k4, k5, k6⟩ := capsLoop_keeps ext.nameToVal njc.cap (phasePre c0 njc)
  rw [hc] at k1 k2 k3 k4 k5 k6
  cases b with
  | false => exact ⟨k5.trans pA, k4.trans pF, k6.trans pU, rfl⟩
  | true =>
    obtain ⟨mM, mP, mF, mA, mU, mO⟩ := phaseMisc_keeps ext c1 njc
    have h' : (fromUidMaps ext s0 njc (phaseMisc ext c1 njc)).1 = false := h
    obtain ⟨w1, w2, w3, w4⟩ := fromUidMaps_false ext s0 njc (phaseMisc ext c1 njc) h'
    exact ⟨w1.trans (mA.trans (k5.trans pA)), w2.trans (mF.trans (k4.trans pF)),
      w3.trans (mU.trans (k6.trans pU)), w4⟩

theorem configParse_true_spec (ext : Ext) (c0 : Nsjconf) (s0 : List (Option String))
    (njc : nsjail.NsJailConfig)
    (h : (configParseInternal ext c0 s0 njc).1 = true) :
    (configParseInternal ext c0 s0 njc).2.1.mounts = c0.mounts ++ njc.mount.map mkMountOp ∧
    (configParseInternal ext c0 s0 njc).2.1.proc_path =
      (if njc.mount_proc = false then "" else c0.proc_path) ∧
    (configParseInternal ext c0 s0 njc).2.1.openfds =
      passFdsLoop c0.openfds 0 njc.pass_fd ∧
    (njc.exec_bin = none →
      (configParseInternal ext c0 s0 njc).2.1.exec_file = c0.exec_file) ∧
    (∀ eb, njc.exec_bin = some eb →
      (eb.arg0 = none →
        (configParseInternal ext c0 s0 njc).2.1.exec_file = c0.exec_file) ∧
      (configParseInternal ext c0 s0 njc).2.1.argv =
        s0 ++ (match eb.arg0 with
               | some a0 => some a0
               | none => some eb.path) :: (eb.arg.map some ++ [none])) := by
  obtain ⟨pC, pO, pM, pP, pF, pA, pU⟩ := phasePre_keeps c0 njc
  unfold configParseInternal at h ⊢
  rcases hc : capsLoop ext.nameToVal (phasePre c0 njc) njc.cap with ⟨b, c1⟩
  rw [hc] at h
  obtain ⟨k1, k2, k3, k4, k5, k6⟩ := capsLoop_keeps ext.nameToVal njc.cap (phasePre c0 njc)
  rw [hc] at k1 k2 k3 k4 k5 k6
  cases b with
  | false => cases h
  | true =>
    obtain ⟨mM, mP, mF, mA, mU, mO⟩ := phaseMisc_keeps ext c1 njc
    have h' : (fromUidMaps ext s0 njc (phaseMisc ext c1 njc)).1 = true := h
    obtain ⟨w1, w2, w3, w4, w5⟩ := fromUidMaps_true ext s0 njc (phaseMisc ext c1 njc) h'
    have hMnt : (phaseMisc ext c1 njc).mounts = c0.mounts := mM.trans (k2.trans pM)
    have hPrc : (phaseMisc ext c1 njc).proc_path = c0.proc_path := mP.trans (k3.trans pP)
    have hOfd : (phaseMisc ext c1 njc).openfds = passFdsLoop c0.openfds 0 njc.pass_fd := by
      rw [mO, k1, pO]
    have hExf : (phaseMisc ext c1 njc).exec_file = c0.exec_file := mF.trans (k4.trans pF)
    refine ⟨w1.trans (by rw [hMnt]), w2.trans (by rw [hPrc]), w3.trans hOfd,
      fun hne => (w4 hne).trans hExf, fun eb heq => ?_⟩
    obtain ⟨v1, v2⟩ := w5 eb heq
    exact ⟨fun h0 => (v1 h0).trans hExf, v2⟩

/-! ### The claims -/

/-- Claim C1 — the code violates it. The spec demands that compiling the same
declarative config twice produce structurally equal runtime configs, the exec
invocation array being fully rebuilt rather than appended to. The code keeps
the argv pointers in a `static std::vector` that is never cleared, so the
second compilation of `njcExec` (path `/bin/sh`, args `-c id`) yields an argv
array that is the first array repeated twice — not an identical rebuild. -/
theorem exec_argv_static_buffer_accumulates :
    (configParseInternal ext0 c00 [] njcExec).1 = true ∧
    (configParseInternal ext0 c00
        (configParseInternal ext0 c00 [] njcExec).2.2 njcExec).1 = true ∧
    (configParseInternal ext0 c00 [] njcExec).2.1.argv =
      [some "/bin/sh", some "-c", some "id", none] ∧
    (configParseInternal ext0 c00
        (configParseInternal ext0 c00 [] njcExec).2.2 njcExec).2.1.argv =
      (configParseInternal ext0 c00 [] njcExec).2.1.argv ++
        (configParseInternal ext0 c00 [] njcExec).2.1.argv ∧
    (configParseInternal ext0 c00
        (configParseInternal ext0 c00 [] njcExec).2.2 njcExec).2.1.argv ≠
      (configParseInternal ext0 c00 [] njcExec).2.1.argv := by
  refine ⟨rfl, rfl, rfl, rfl, ?_⟩
  decide

/-- Claim C2, counterexample: compilation of `njcBadCap` fails (unresolvable
capability name), yet the caller-visible output is not unchanged — its run
mode field was already overwritten before the failure point. -/
theorem compile_failure_mutates_output :
    (configParseInternal ext0 c00 [] njcBadCap).1 = false ∧
    (configParseInternal ext0 c00 [] njcBadCap).2.1.mode ≠ c00.mode := by
  refine ⟨rfl, ?_⟩
  decide

/-- Claim C2 as amended: the compiler mutates the caller's output structure in
place, so on failure fields resolved before the failing one may already have
been overwritten; what holds is that the function returns `false` and that the
exec-spec fields (`argv`, `exec_file`, `use_execveat`) and the static argv
buffer — everything at or past the exec step — are untouched. -/
theorem compile_failure_frame (ext : Ext) (c0 : Nsjconf) (s0 : List (Option String))
    (njc : nsjail.NsJailConfig)
    (h : (configParseInternal ext c0 s0 njc).1 = false) :
    (configParseInternal ext c0 s0 njc).2.1.argv = c0.argv ∧
    (configParseInternal ext c0 s0 njc).2.1.exec_file = c0.exec_file ∧
    (configParseInternal ext c0 s0 njc).2.1.use_execveat = c0.use_execveat ∧
    (configParseInternal ext c0 s0 njc).2.2 = s0 :=
  configParse_false_frame ext c0 s0 njc h

/-- Witness for the amended claim C2 at the concrete failing input. -/
theorem compile_failure_frame_witness :
    (configParseInternal ext0 c00 [] njcBadCap).2.1.argv = c00.argv ∧
    (configParseInternal ext0 c00 [] njcBadCap).2.1.exec_file = c00.exec_file ∧
    (configParseInternal ext0 c00 [] njcBadCap).2.1.use_execveat = c00.use_execveat ∧
    (configParseInternal ext0 c00 [] njcBadCap).2.2 = [] :=
  compile_failure_frame ext0 c00 [] njcBadCap rfl

/-- Claim C3: for every governed resource kind and every supplied magnitude
and multiplier, resolving a resource limit with the `unbounded` policy
(`nsjail::RLimit::INF`) returns the platform's canonical no-limit sentinel
`RLIM64_INFINITY`, independent of the magnitude and the multiplier. -/
theorem rlimit_inf_sentinel (ext : Ext) (res val mul : Nat) :
    configRLimit ext res nsjail.RLimit.INF val mul = RLIM64_INFINITY := rfl

/-- Claim C4, counterexample: for magnitude `2^44` the byte-denominated
explicit-value policy does not return `M × 1 048 576`: the `uint64_t` product
wraps modulo `2^64` and the resolver returns `0`. -/
theorem rlimit_value_overflow :
    configRLimit ext0 RLIMIT_AS nsjail.RLimit.VALUE (2 ^ 44) (1024 * 1024) = 0 ∧
    2 ^ 44 * 1048576 ≠ 0 := by
  refine ⟨?_, by decide⟩
  decide

/-- Claim C4 as amended: the explicit-value policy returns the `uint64_t`
product `magnitude × multiplier mod 2^64`; this equals `M × 1 048 576` for
byte-denominated resources whenever that product fits in 64 bits, and equals
`M` exactly for the time/count-denominated resources (multiplier 1) whenever
`M` is a 64-bit value. -/
theorem rlimit_value_semantics (ext : Ext) (res val mul : Nat) :
    configRLimit ext res nsjail.RLimit.VALUE val mul = val * mul % 2 ^ 64 ∧
    (val * 1048576 < 2 ^ 64 →
      configRLimit ext res nsjail.RLimit.VALUE val 1048576 = val * 1048576) ∧
    (val < 2 ^ 64 → configRLimit ext res nsjail.RLimit.VALUE val 1 = val) := by
  refine ⟨rfl, fun h => ?_, fun h => ?_⟩
  · exact Nat.mod_eq_of_lt h
  · show val * 1 % 2 ^ 64 = val
    rw [Nat.mul_one]
    exact Nat.mod_eq_of_lt h

/-- Witness for the amended claim C4 at in-range magnitudes. -/
theorem rlimit_value_semantics_witness :
    configRLimit ext0 RLIMIT_AS nsjail.RLimit.VALUE 3 1048576 = 3 * 1048576 ∧
    configRLimit ext0 RLIMIT_CPU nsjail.RLimit.VALUE 3 1 = 3 :=
  ⟨(rlimit_value_semantics ext0 RLIMIT_AS 3 1).2.1 (by decide),
   (rlimit_value_semantics ext0 RLIMIT_CPU 3 1).2.2 (by decide)⟩

/-- Claim C5: whenever some declared capability name fails the name→numeric
lookup, compilation returns failure, and every entry of the (possibly
partially appended) capability list either predates the call or is the
successful resolution of a declared name — the unresolved name contributes
nothing, not even the `-1` failure sentinel. -/
theorem unknown_cap_aborts (ext : Ext) (c0 : Nsjconf) (s0 : List (Option String))
    (njc : nsjail.NsJailConfig)
    (hbad : ∃ n ∈ njc.cap, ext.nameToVal n = -1) :
    (configParseInternal ext c0 s0 njc).1 = false ∧
    ∀ x ∈ (configParseInternal ext c0 s0 njc).2.1.caps,
      x ∈ c0.caps ∨ ∃ m ∈ njc.cap, ext.nameToVal m = x ∧ x ≠ -1 := by
  obtain ⟨pC, pO, pM, pP, pF, pA, pU⟩ := phasePre_keeps c0 njc
  have hfail := capsLoop_fails ext.nameToVal njc.cap (phasePre c0 njc) hbad
  have hmem := capsLoop_caps_mem ext.nameToVal njc.cap (phasePre c0 njc)
  unfold configParseInternal
  rcases hc : capsLoop ext.nameToVal (phasePre c0 njc) njc.cap with ⟨b, c1⟩
  rw [hc] at hfail hmem
  cases b with
  | true => cases hfail
  | false =>
    refine ⟨rfl, fun x hx => ?_⟩
    rcases hmem x hx with h1 | h2
    · exact Or.inl (pC ▸ h1)
    · exact Or.inr h2

/-- Witness for claim C5 at the concrete failing input. -/
theorem unknown_cap_aborts_witness :
    (configParseInternal ext0 c00 [] njcBadCap).1 = false ∧
    ∀ x ∈ (configParseInternal ext0 c00 [] njcBadCap).2.1.caps,
      x ∈ c00.caps ∨ ∃ m ∈ njcBadCap.cap, ext0.nameToVal m = x ∧ x ≠ -1 :=
  unknown_cap_aborts ext0 c00 [] njcBadCap
    ⟨"CAP_NO_SUCH_THING", by decide, by decide⟩

/-- Claim C6: derived mount flags are read-only (`MS_RDONLY`) exactly when
the writable toggle is off; a bind mount always carries
`MS_BIND | MS_REC | MS_PRIVATE`; and a descriptor with a literal source, no
writable flag and no bind flag resolves to exactly `MS_RDONLY` — read-only
and non-bind. -/
theorem mount_flags_readonly_default (m : nsjail.MountPt) :
    (m.rw = false → mountFlags m &&& MS_RDONLY = MS_RDONLY) ∧
    (m.rw = true → mountFlags m &&& MS_RDONLY = 0) ∧
    (m.is_bind = true →
      mountFlags m &&& (MS_BIND ||| MS_REC ||| MS_PRIVATE) =
        MS_BIND ||| MS_REC ||| MS_PRIVATE) ∧
    (m.src.isSome = true → m.rw = false → m.is_bind = false →
      mountFlags m = MS_RDONLY ∧ mountFlags m &&& MS_BIND = 0) := by
  unfold mountFlags
  rcases hrw : m.rw <;> rcases hb : m.is_bind <;>
    simp [MS_RDONLY, MS_BIND, MS_REC, MS_PRIVATE]
  decide

/-- Witness for claim C6: a literal-source read-only non-bind descriptor
resolves to exactly `MS_RDONLY`, and a bind descriptor carries the full bind
flag set. -/
theorem mount_flags_readonly_default_witness :
    (mountFlags mptRo = MS_RDONLY ∧ mountFlags mptRo &&& MS_BIND = 0) ∧
    mountFlags mptLib &&& (MS_BIND ||| MS_REC ||| MS_PRIVATE) =
      MS_BIND ||| MS_REC ||| MS_PRIVATE :=
  ⟨(mount_flags_readonly_default mptRo).2.2.2 (by decide) (by decide) (by decide),
   (mount_flags_readonly_default mptLib).2.2.1 (by decide)⟩

/-- Claim C7: on every successful compilation the output's mount-operation
list is the caller's list with the declared mounts appended at the tail in
declaration order (never reordered or merged), and the proc-suppression
toggle only clears the implicit proc path — the explicit mount list is
unaffected by it. -/
theorem mount_order_and_proc_suppression (ext : Ext) (c0 : Nsjconf)
    (s0 : List (Option String)) (njc : nsjail.NsJailConfig)
    (h : (configParseInternal ext c0 s0 njc).1 = true) :
    (configParseInternal ext c0 s0 njc).2.1.mounts =
      c0.mounts ++ njc.mount.map mkMountOp ∧
    (configParseInternal ext c0 s0 njc).2.1.proc_path =
      (if njc.mount_proc = false then "" else c0.proc_path) := by
  obtain ⟨w1, w2, _, _, _⟩ := configParse_true_spec ext c0 s0 njc h
  exact ⟨w1, w2⟩

/-- Witness for claim C7: two explicit mounts (one with destination `/proc`)
with proc suppression on — both explicit entries survive in order, only the
implicit proc path is cleared. -/
theorem mount_order_and_proc_suppression_witness :
    (configParseInternal ext0 c00 [] njcMounts).2.1.mounts =
      c00.mounts ++ njcMounts.mount.map mkMountOp ∧
    (configParseInternal ext0 c00 [] njcMounts).2.1.proc_path =
      (if njcMounts.mount_proc = false then "" else c00.proc_path) :=
  mount_order_and_proc_suppression ext0 c00 [] njcMounts rfl

/-- Claim C8: building the exec invocation from a fresh (empty) static buffer
yields an array whose head is the `arg0` override when given and the
executable path otherwise, followed by the declared arguments in order and a
terminating null entry; when the override is given, the executable path is
retained in the distinct `exec_file` field. -/
theorem exec_argv_layout (c : Nsjconf) (s0 : List (Option String)) (eb : nsjail.Exe)
    (hs : s0 = []) :
    (execSpecStep c s0 eb).1.argv =
      (match eb.arg0 with
       | some a0 => some a0
       | none => some eb.path) :: (eb.arg.map some ++ [none]) ∧
    (∀ a0, eb.arg0 = some a0 → (execSpecStep c s0 eb).1.exec_file = some eb.path) := by
  subst hs
  refine ⟨?_, fun a0 h0 => execSpecStep_exec_file_some c [] eb a0 h0⟩
  rw [execSpecStep_argv_eq_buf, execSpecStep_buf]
  simp

/-- Witness for claim C8: path `/bin/sh`, no override, arguments `-c id`
yield exactly `[/bin/sh, -c, id, null]`. -/
theorem exec_argv_layout_witness :
    (execSpecStep c00 [] exeSh).1.argv =
      [some "/bin/sh", some "-c", some "id", none] :=
  (exec_argv_layout c00 [] exeSh rfl).1.trans rfl

/-- Claim C9: on every successful compilation starting from an empty
open-descriptor list, the compiled list is the positional indices
`0 … n−1` (`List.range n`) for `n` declared pass-fd entries — the configured
descriptor numbers never enter the result. -/
theorem pass_fd_positional_indices (ext : Ext) (c0 : Nsjconf)
    (s0 : List (Option String)) (njc : nsjail.NsJailConfig)
    (h : (configParseInternal ext c0 s0 njc).1 = true) (h0 : c0.openfds = []) :
    (configParseInternal ext c0 s0 njc).2.1.openfds =
      List.range njc.pass_fd.length := by
  obtain ⟨_, _, w3, _, _⟩ := configParse_true_spec ext c0 s0 njc h
  rw [w3, passFdsLoop_eq, h0, List.nil_append]
  exact (List.range_eq_range' _).symm

/-- Witness for claim C9: pass-fd entries `5 22 7` compile to `[0, 1, 2]`. -/
theorem pass_fd_positional_indices_witness :
    (configParseInternal ext0 c00 [] njcFds).2.1.openfds =
      List.range njcFds.pass_fd.length :=
  pass_fd_positional_indices ext0 c00 [] njcFds rfl rfl

/-- Claim C10: when the exec descriptor is declared without an `arg0`
override, compilation leaves the separate executable-path field `exec_file`
unmodified — it is assigned only on the override branch. -/
theorem exec_file_frame (ext : Ext) (c0 : Nsjconf) (s0 : List (Option String))
    (njc : nsjail.NsJailConfig) (eb : nsjail.Exe)
    (hx : njc.exec_bin = some eb) (h0 : eb.arg0 = none) :
    (configParseInternal ext c0 s0 njc).2.1.exec_file = c0.exec_file := by
  cases hb : (configParseInternal ext c0 s0 njc).1 with
  | false => exact (configParse_false_frame ext c0 s0 njc hb).2.1
  | true => exact ((configParse_true_spec ext c0 s0 njc hb).2.2.2.2 eb hx).1 h0

/-- Witness for claim C10 at the concrete `/bin/sh` exec config. -/
theorem exec_file_frame_witness :
    (configParseInternal ext0 c00 [] njcExec).2.1.exec_file = c00.exec_file :=
  exec_file_frame ext0 c00 [] njcExec exeSh rfl rfl

end config
